import Mathlib

/-!
Verification of the `hessian-rank` notebook (`src/hessian_rank.ipynb`).

The notebook is a straight-line experiment: it builds a linear fully-connected
network, accumulates the input covariance, the full loss Hessian and the
outer-product-of-gradients Hessian over batches, measures numerical ranks and
compares them with closed-form predictions.  We embed the notebook's own
arithmetic (cells 6, 12, 14, 17) shallowly: exact rationals stand for the
double-precision reals, the external collaborators (`get_dataset`,
`fully_connected`, `loss_hessian`, `outer_prod`, `matrix_rank`, and the
transcendental functions used by the losses) are abstract parameters, and the
notebook's printed reference output is recorded literally.
-/

namespace HessianRank

/-! ## Cell 6: hyperparameters and the parameter count -/

/-- Cell 6: `all_widths = [dim] + widths + [classes]`. -/
def all_widths (dim : ℕ) (widths : List ℕ) (classes : ℕ) : List ℕ :=
  dim :: (widths ++ [classes])

/-- Cell 6: `p = sum([all_widths[i] * all_widths[i+1] for i in range(len(all_widths)-1)])`,
the total parameter count: the sum of products of consecutive widths. -/
def pCount (dim : ℕ) (widths : List ℕ) (classes : ℕ) : ℕ :=
  (((all_widths dim widths classes).zip (all_widths dim widths classes).tail).map
    (fun ab => ab.1 * ab.2)).sum

/-! ## Cell 17: the bound predictor -/

/-- Cell 17: `classes = classes - 1` exactly when `loss_name == 'cross'`
(the class count is an integer in the source, so the decrement is over ℤ). -/
def effectiveClasses (lossName : String) (classes : ℤ) : ℤ :=
  if lossName = "cross" then classes - 1 else classes

/-- Cell 17: `s = jnp.min(jnp.array([rank_cov, classes]))`. -/
def sval (r k : ℤ) : ℤ := min r k

/-- Cell 17: `q = jnp.min(jnp.array([rank_cov, classes] + widths))`:
the minimum of the covariance rank, the (effective) class count and every
hidden width. -/
def qval (r k : ℤ) (widths : List ℕ) : ℤ :=
  (widths.map (Int.ofNat)).foldl min (min r k)

/-- Cell 17: `pred_F = 2 * q * sum(widths) + 2 * q * s - (len(widths)+1) * q**2`. -/
def pred_F (r k : ℤ) (widths : List ℕ) : ℤ :=
  2 * qval r k widths * (widths.sum : ℤ) + 2 * qval r k widths * sval r k
    - ((widths.length : ℤ) + 1) * qval r k widths ^ 2

/-- Cell 17: `pred_outer = (rank_cov + classes - q) * q`. -/
def pred_outer (r k : ℤ) (widths : List ℕ) : ℤ :=
  (r + k - qval r k widths) * qval r k widths

/-- Cell 17: `pred_L = pred_F + pred_outer + q * (q - 2 * s)`. -/
def pred_L (r k : ℤ) (widths : List ℕ) : ℤ :=
  pred_F r k widths + pred_outer r k widths
    + qval r k widths * (qval r k widths - 2 * sval r k)

/-- The whole of cell 17 as one computation: decrement the class count for the
cross-entropy loss, then compute `s`, `q` and the three predictions. -/
structure Cell17Output where
  effClasses : ℤ
  s : ℤ
  q : ℤ
  predF : ℤ
  predOuter : ℤ
  predL : ℤ

/-- Cell 17 executed on the measured covariance rank, the configured class
count and the hidden widths. -/
def cell17 (lossName : String) (rank_cov classes : ℤ) (widths : List ℕ) :
    Cell17Output :=
  let k := effectiveClasses lossName classes
  { effClasses := k
    s := sval rank_cov k
    q := qval rank_cov k widths
    predF := pred_F rank_cov k widths
    predOuter := pred_outer rank_cov k widths
    predL := pred_L rank_cov k widths }

/-! ## The reference run (cell 6 configuration, cell 17 printed output) -/

/-- Cell 6: `n_train = 50`. -/
def ref_n_train : ℕ := 50

/-- Cell 6: `dim = 25`. -/
def ref_dim : ℕ := 25

/-- Cell 6: `widths = [5, 10]`. -/
def ref_widths : List ℕ := [5, 10]

/-- Cell 6: `classes = 10`. -/
def ref_classes : ℕ := 10

/-- Cell 6: `bs = 10`. -/
def ref_bs : ℕ := 10

/-- Cell 12: `loss_name = 'mse'` (half sum of squared differences). -/
def ref_loss_name : String := "mse"

/-- Cell 17 recorded output: `Rank of Functional Hessian is 175`. -/
def recorded_rank_F : ℕ := 175

/-- Cell 17 recorded output: `Rank of Gradient Outer Product is 150`. -/
def recorded_rank_outer : ℕ := 150

/-- Cell 17 recorded output: `Rank of Loss Hessian is 250`. -/
def recorded_rank_L : ℕ := 250

/-- Cell 17 recorded output: `the prediction is 175` (functional Hessian). -/
def recorded_pred_F : ℤ := 175

/-- Cell 17 recorded output: `the prediction is 150` (gradient outer product). -/
def recorded_pred_outer : ℤ := 150

/-- Cell 17 recorded output: `the prediction is 250` (loss Hessian). -/
def recorded_pred_L : ℤ := 250

/-- Modelled from the spec: the measured covariance rank of the reference run.
`rank_cov = jnp.linalg.matrix_rank(cov)` (cell 15) is computed by the
linear-algebra collaborator on the loaded data and is not itself printed; the
recorded predictions (175, 150, 250) force its value to be 25, the full input
dimension. -/
def ref_rank_cov : ℕ := 25

/-! ## Cell 14: batch-wise accumulation -/

/-- Square rational matrices of size `m`; exact stand-in for the notebook's
double-precision `m × m` arrays. -/
abbrev Mat (m : ℕ) : Type := Fin m → Fin m → ℚ

/-- One batch delivered by the train loader: `bs` input rows of dimension `d`
and `bs` label rows of dimension `k`. -/
structure Batch (bs d k : ℕ) where
  input : Fin bs → Fin d → ℚ
  label : Fin bs → Fin k → ℚ

/-- Cell 14: `cov += batch_input.T @ batch_input`; the per-batch covariance
contribution `(Xᵀ X)_{ab} = Σ_i X_{ia} · X_{ib}`. -/
def covContrib {bs d : ℕ} (x : Fin bs → Fin d → ℚ) : Mat d :=
  fun a b => ∑ i, x i a * x i b

/-- The three accumulator matrices of cell 14: the `d × d` input covariance
and the two `p × p` Hessian accumulators. -/
structure AccState (d p : ℕ) where
  cov : Mat d
  hL : Mat p
  hOuter : Mat p

/-- Cell 14: the accumulators are created as `jnp.zeros`. -/
def accInit (d p : ℕ) : AccState d p := ⟨0, 0, 0⟩

/-- One iteration of the cell 14 loop: add the batch covariance, the batch
loss Hessian (`loss_hessian`, an external collaborator, abstract parameter
`hessL`) and the batch gradient outer product (`outer_prod`, abstract
parameter `hessO`). -/
def accStep {bs d k p : ℕ} (hessL hessO : Batch bs d k → Mat p)
    (st : AccState d p) (b : Batch bs d k) : AccState d p :=
  ⟨st.cov + covContrib b.input, st.hL + hessL b, st.hOuter + hessO b⟩

/-- The cell 14 loop over the batches delivered by the train loader. -/
def runAccum {bs d k p : ℕ} (hessL hessO : Batch bs d k → Mat p)
    (batches : List (Batch bs d k)) : AccState d p :=
  batches.foldl (accStep hessL hessO) (accInit d p)

/-- Cell 14: `H_F = H_L - H_outer`, the functional Hessian computed as the
difference of the accumulated full and outer-product Hessians. -/
def H_F {d p : ℕ} (st : AccState d p) : Mat p := st.hL - st.hOuter

/-! ## Cell 12: the loss functional -/

/-- `logsoftmax` from the automatic-differentiation library (an external
collaborator), modelled mathematically: row-wise
`logsoftmax(x)_{ij} = x_{ij} − log Σ_l exp x_{il}`, with the transcendental
functions `log` and `exp` abstract parameters over the exact scalars. -/
def logsoftmax {n k : ℕ} (log exp : ℚ → ℚ) (x : Fin n → Fin k → ℚ) :
    Fin n → Fin k → ℚ :=
  fun i j => x i j - log (∑ l, exp (x i l))

/-- Cell 12, `loss_name == 'mse'`: `1/2 * jnp.sum((preds - targets)**2)`. -/
def mse_loss {n k : ℕ} (preds targets : Fin n → Fin k → ℚ) : ℚ :=
  1/2 * ∑ i, ∑ j, (preds i j - targets i j) ^ 2

/-- Cell 12, `loss_name == 'cross'`: `-jnp.sum(logsoftmax(preds) * targets)`. -/
def cross_loss {n k : ℕ} (log exp : ℚ → ℚ)
    (preds targets : Fin n → Fin k → ℚ) : ℚ :=
  -∑ i, ∑ j, logsoftmax log exp preds i j * targets i j

/-- Cell 12, `loss_name == 'cosh'`: `jnp.sum(jnp.log(jnp.cosh(preds - targets)))`. -/
def cosh_loss {n k : ℕ} (log cosh : ℚ → ℚ)
    (preds targets : Fin n → Fin k → ℚ) : ℚ :=
  ∑ i, ∑ j, log (cosh (preds i j - targets i j))

/-- What cell 12 defines for a recognized loss name: the `cross` flag, the
loss on predictions, and the loss on parameters (`loss_params`). -/
structure LossDef (P : Type) (n d k : ℕ) where
  cross : Bool
  loss : (Fin n → Fin k → ℚ) → (Fin n → Fin k → ℚ) → ℚ
  loss_params : P → (Fin n → Fin d → ℚ) → (Fin n → Fin k → ℚ) → ℚ

/-- Cell 12: the three `if loss_name == ...` branches.  For each recognized
name the branch defines `cross`, `loss` and `loss_params` (the latter applies
the network evaluator `apply_fn`, an external collaborator, and then the same
loss formula); an unrecognized name defines nothing, modelled as `none`. -/
def cell12 {P : Type} {n d k : ℕ} (log exp cosh : ℚ → ℚ)
    (apply_fn : P → (Fin n → Fin d → ℚ) → (Fin n → Fin k → ℚ))
    (loss_name : String) : Option (LossDef P n d k) :=
  if loss_name = "mse" then
    some ⟨false, mse_loss,
      fun params inputs targets => mse_loss (apply_fn params inputs) targets⟩
  else if loss_name = "cross" then
    some ⟨true, cross_loss log exp,
      fun params inputs targets =>
        cross_loss log exp (apply_fn params inputs) targets⟩
  else if loss_name = "cosh" then
    some ⟨false, cosh_loss log cosh,
      fun params inputs targets =>
        cosh_loss log cosh (apply_fn params inputs) targets⟩
  else none

/-- Cell 14 run against what cell 12 produced: every iteration of the loop
uses the loss definition, so when it is missing (`none`) the first iteration
fails with an unhandled name error; with no batches the loop body never runs
and the zero-initialized state is returned unchanged. -/
def accLoopChecked {L : Type} {bs d k p : ℕ} (ld : Option L)
    (hessL hessO : L → Batch bs d k → Mat p) (st : AccState d p) :
    List (Batch bs d k) → Option (AccState d p)
  | [] => some st
  | b :: rest =>
    match ld with
    | none => none
    | some l => accLoopChecked ld hessL hessO (accStep (hessL l) (hessO l) st b) rest

/-! ## The whole pipeline (cells 6–17) with abstract collaborators -/

/-- Everything the notebook run produces, with the class count each stage was
built from recorded by the field's defining expression. -/
structure NotebookOut (D A : Type) (d p : ℕ) where
  data : D
  arch : A
  pTotal : ℕ
  acc : AccState d p
  rank_cov : ℕ
  rank_L : ℕ
  rank_outer : ℕ
  rank_F : ℕ
  bounds : Cell17Output

/-- The notebook pipeline in source order: cell 8 builds the dataset with the
configured class count (`get_dataset`, abstract), cell 10 builds the network
with the configured widths and class count (`fully_connected`, abstract),
cell 6 computes the parameter count, cell 14 accumulates the matrices with
the selected loss (`hessL`/`hessO` abstract collaborators closed over the
loss), cell 15 measures ranks (`mrank_d`/`mrank_p`, abstract), and only then
cell 17 adjusts the class count and evaluates the bound formulas. -/
def notebook {D A : Type} {bs din k p : ℕ}
    (get_dataset : ℕ → ℕ → ℕ → D)
    (fully_connected : List ℕ → ℕ → A)
    (hessL hessO : String → Batch bs din k → Mat p)
    (mrank_d : Mat din → ℕ) (mrank_p : Mat p → ℕ)
    (n_train dim : ℕ) (widths : List ℕ) (classes : ℕ) (loss_name : String)
    (batches : List (Batch bs din k)) : NotebookOut D A din p :=
  let data := get_dataset n_train dim classes
  let arch := fully_connected widths classes
  let pT := pCount dim widths classes
  let st := runAccum (hessL loss_name) (hessO loss_name) batches
  let r := mrank_d st.cov
  { data := data
    arch := arch
    pTotal := pT
    acc := st
    rank_cov := r
    rank_L := mrank_p st.hL
    rank_outer := mrank_p st.hOuter
    rank_F := mrank_p (H_F st)
    bounds := cell17 loss_name (r : ℤ) (classes : ℤ) widths }

/-! ## Concrete data for witnesses -/

/-- A concrete one-example batch used by witnesses. -/
def wBatch1 : Batch 1 1 1 := ⟨fun _ _ => 1, fun _ _ => 0⟩

/-- A second concrete one-example batch used by witnesses. -/
def wBatch2 : Batch 1 1 1 := ⟨fun _ _ => 2, fun _ _ => 0⟩

/-! ## Helper lemmas -/

theorem foldl_min_le_init (a : ℤ) (l : List ℤ) : l.foldl min a ≤ a := by
  induction l generalizing a with
  | nil => exact le_refl a
  | cons x xs ih => exact le_trans (ih (min a x)) (min_le_left a x)

theorem foldl_min_le_mem (a : ℤ) (l : List ℤ) (x : ℤ) (hx : x ∈ l) :
    l.foldl min a ≤ x := by
  induction l generalizing a with
  | nil => cases hx
  | cons y ys ih =>
    rcases List.mem_cons.mp hx with h | h
    · subst h
      exact le_trans (foldl_min_le_init (min a x) ys) (min_le_right a x)
    · exact ih (min a y) h

theorem foldl_min_attained (a : ℤ) (l : List ℤ) :
    l.foldl min a = a ∨ l.foldl min a ∈ l := by
  induction l generalizing a with
  | nil => exact Or.inl rfl
  | cons y ys ih =>
    rcases ih (min a y) with h | h
    · rcases min_cases a y with ⟨hm, _⟩ | ⟨hm, _⟩
      · exact Or.inl (by rw [List.foldl_cons, h, hm])
      · exact Or.inr (by rw [List.foldl_cons, h, hm]; exact List.mem_cons_self y ys)
    · exact Or.inr (List.mem_cons_of_mem y h)

/-- The cell 14 loop from an arbitrary starting state adds exactly the
per-batch contributions, componentwise. -/
theorem foldl_accStep_eq {bs d k p : ℕ} (hessL hessO : Batch bs d k → Mat p)
    (batches : List (Batch bs d k)) (st : AccState d p) :
    batches.foldl (accStep hessL hessO) st =
      ⟨st.cov + (batches.map (fun b => covContrib b.input)).sum,
       st.hL + (batches.map hessL).sum,
       st.hOuter + (batches.map hessO).sum⟩ := by
  induction batches generalizing st with
  | nil => simp
  | cons b rest ih =>
    simp only [List.foldl_cons, List.map_cons, List.sum_cons, ih, accStep]
    congr 1 <;> abel

/-- The accumulated state is the zero-initialized state plus the sum of the
per-batch contributions. -/
theorem runAccum_eq_sums {bs d k p : ℕ} (hessL hessO : Batch bs d k → Mat p)
    (batches : List (Batch bs d k)) :
    runAccum hessL hessO batches =
      ⟨(batches.map (fun b => covContrib b.input)).sum,
       (batches.map hessL).sum,
       (batches.map hessO).sum⟩ := by
  rw [runAccum, foldl_accStep_eq]
  congr 1 <;> exact zero_add _

end HessianRank

open HessianRank

/-- C1: the bound predictor, given the covariance rank `r`, the (possibly
adjusted) class count `k` and the hidden widths, computes
`q = min(r, k, each hidden width)` (a common lower bound that is attained),
`s = min(r, k)`, and returns exactly the three predictions:
outer prediction `q·(r + k − q)`, functional prediction
`2q·Σwidths + 2qs − L·q²` with `L` the number of hidden widths plus one,
and full-loss prediction `pred_F + pred_outer + q·(q − 2s)`. -/
theorem C1_bound_predictor (r k : ℤ) (widths : List ℕ) :
    (qval r k widths ≤ r ∧ qval r k widths ≤ k ∧
      (∀ m ∈ widths, qval r k widths ≤ (m : ℤ)) ∧
      (qval r k widths = r ∨ qval r k widths = k ∨
        ∃ m ∈ widths, qval r k widths = (m : ℤ))) ∧
    sval r k = min r k ∧
    pred_outer r k widths = qval r k widths * (r + k - qval r k widths) ∧
    pred_F r k widths
      = 2 * qval r k widths * (widths.sum : ℤ) + 2 * qval r k widths * sval r k
        - ((widths.length : ℤ) + 1) * qval r k widths ^ 2 ∧
    pred_L r k widths
      = pred_F r k widths + pred_outer r k widths
        + qval r k widths * (qval r k widths - 2 * sval r k) := by
  refine ⟨⟨?_, ?_, ?_, ?_⟩, rfl, by unfold pred_outer; ring, rfl, rfl⟩
  · exact le_trans (foldl_min_le_init _ _) (min_le_left r k)
  · exact le_trans (foldl_min_le_init _ _) (min_le_right r k)
  · intro m hm
    exact foldl_min_le_mem _ _ _ (List.mem_map_of_mem Int.ofNat hm)
  · rcases foldl_min_attained (min r k) (widths.map Int.ofNat) with h | h
    · rcases min_cases r k with ⟨hm, _⟩ | ⟨hm, _⟩
      · exact Or.inl (by rw [qval, h, hm])
      · exact Or.inr (Or.inl (by rw [qval, h, hm]))
    · rcases List.mem_map.mp h with ⟨m, hmem, heq⟩
      exact Or.inr (Or.inr ⟨m, hmem, heq.symm⟩)

/-- C1 witness: the predictor evaluated at the concrete input
`r = 7, k = 3, widths = [5, 4]`. -/
theorem C1_bound_predictor_witness :
    qval 7 3 [5, 4] = 3 ∧ pred_outer 7 3 [5, 4] = 21 ∧
    ((qval 7 3 [5, 4] ≤ 7 ∧ qval 7 3 [5, 4] ≤ 3 ∧
      (∀ m ∈ ([5, 4] : List ℕ), qval 7 3 [5, 4] ≤ (m : ℤ)) ∧
      (qval 7 3 [5, 4] = 7 ∨ qval 7 3 [5, 4] = 3 ∨
        ∃ m ∈ ([5, 4] : List ℕ), qval 7 3 [5, 4] = (m : ℤ))) ∧
    sval 7 3 = min 7 3 ∧
    pred_outer 7 3 [5, 4] = qval 7 3 [5, 4] * (7 + 3 - qval 7 3 [5, 4]) ∧
    pred_F 7 3 [5, 4]
      = 2 * qval 7 3 [5, 4] * (([5, 4] : List ℕ).sum : ℤ)
        + 2 * qval 7 3 [5, 4] * sval 7 3
        - ((([5, 4] : List ℕ).length : ℤ) + 1) * qval 7 3 [5, 4] ^ 2 ∧
    pred_L 7 3 [5, 4]
      = pred_F 7 3 [5, 4] + pred_outer 7 3 [5, 4]
        + qval 7 3 [5, 4] * (qval 7 3 [5, 4] - 2 * sval 7 3)) :=
  ⟨by decide, by decide, C1_bound_predictor 7 3 [5, 4]⟩

/-- C8: the composite full-loss prediction
`pred_L = pred_F + pred_outer + q·(q − 2s)` is algebraically equal to the
closed form `2q·Σwidths − L·q² + q·(r + k)` with `L` the number of hidden
widths plus one, for all non-negative integers `r`, `k` and hidden widths. -/
theorem C8_pred_L_closed_form (r k : ℕ) (widths : List ℕ) :
    pred_L (r : ℤ) (k : ℤ) widths
      = 2 * qval (r : ℤ) (k : ℤ) widths * (widths.sum : ℤ)
        - ((widths.length : ℤ) + 1) * qval (r : ℤ) (k : ℤ) widths ^ 2
        + qval (r : ℤ) (k : ℤ) widths * ((r : ℤ) + (k : ℤ)) := by
  unfold pred_L pred_F pred_outer
  ring

/-- C2: for the reference configuration (50 samples, input dimension 25,
hidden widths [5, 10], 10 classes, batch size 10, squared-error loss), the
recorded run measures functional-Hessian rank 175 equal to its prediction
175, outer-product rank 150 equal to its prediction 150, and full-loss rank
250 equal to its prediction 250; the bound formulas evaluated at the run's
covariance rank 25 reproduce exactly the recorded predictions. -/
theorem C2_reference_run :
    (cell17 ref_loss_name (ref_rank_cov : ℤ) (ref_classes : ℤ) ref_widths).predF
      = recorded_pred_F ∧
    (cell17 ref_loss_name (ref_rank_cov : ℤ) (ref_classes : ℤ) ref_widths).predOuter
      = recorded_pred_outer ∧
    (cell17 ref_loss_name (ref_rank_cov : ℤ) (ref_classes : ℤ) ref_widths).predL
      = recorded_pred_L ∧
    (recorded_rank_F : ℤ) = recorded_pred_F ∧
    (recorded_rank_outer : ℤ) = recorded_pred_outer ∧
    (recorded_rank_L : ℤ) = recorded_pred_L ∧
    recorded_pred_F = 175 ∧ recorded_pred_outer = 150 ∧ recorded_pred_L = 250 := by
  decide

/-- C3: for every configuration, the full loss Hessian accumulated by the
pipeline equals the sum of the functional Hessian (computed as the
accumulated full Hessian minus the accumulated outer-product Hessian) and
the outer-product Hessian, exactly in exact arithmetic. -/
theorem C3_full_hessian_decomposition {bs d k p : ℕ}
    (hessL hessO : Batch bs d k → Mat p) (batches : List (Batch bs d k)) :
    H_F (runAccum hessL hessO batches) + (runAccum hessL hessO batches).hOuter
      = (runAccum hessL hessO batches).hL := by
  unfold H_F
  abel

/-- C4: the effective class count used by the bound predictor is the
configured count decremented by one exactly when the loss family is
cross-entropy, the decrement is applied before `s` and `q` are computed, and
for every other loss name (in particular squared-error and cosh) the count is
used unchanged. -/
theorem C4_cross_entropy_decrement (name : String) (r classes : ℤ)
    (widths : List ℕ) (hname : name ≠ "cross") :
    effectiveClasses "cross" classes = classes - 1 ∧
    effectiveClasses "mse" classes = classes ∧
    effectiveClasses "cosh" classes = classes ∧
    effectiveClasses name classes = classes ∧
    (cell17 "cross" r classes widths).s = sval r (classes - 1) ∧
    (cell17 "cross" r classes widths).q = qval r (classes - 1) widths ∧
    (cell17 name r classes widths).s = sval r classes ∧
    (cell17 name r classes widths).q = qval r classes widths := by
  refine ⟨rfl, rfl, rfl, ?_, rfl, rfl, ?_, ?_⟩ <;>
    simp [cell17, effectiveClasses, hname]

/-- C4 witness: the decrement at the concrete inputs
`name = "orthogonal"`, `r = 25`, `classes = 10`, `widths = [5, 10]`. -/
theorem C4_cross_entropy_decrement_witness :
    (cell17 "cross" 25 10 [5, 10]).effClasses = 9 ∧
    (effectiveClasses "cross" 10 = 10 - 1 ∧
    effectiveClasses "mse" 10 = 10 ∧
    effectiveClasses "cosh" 10 = 10 ∧
    effectiveClasses "orthogonal" 10 = 10 ∧
    (cell17 "cross" 25 10 [5, 10]).s = sval 25 (10 - 1) ∧
    (cell17 "cross" 25 10 [5, 10]).q = qval 25 (10 - 1) [5, 10] ∧
    (cell17 "orthogonal" 25 10 [5, 10]).s = sval 25 10 ∧
    (cell17 "orthogonal" 25 10 [5, 10]).q = qval 25 10 [5, 10]) :=
  ⟨by decide,
   C4_cross_entropy_decrement "orthogonal" 25 10 [5, 10] (by decide)⟩

/-- C5: for a fixed batch decomposition of the training set, the accumulated
covariance, full Hessian and outer-product Hessian — and hence their measured
ranks — are invariant under any permutation of the order in which the batches
are processed, because accumulation is a running sum. -/
theorem C5_batch_order_invariance {bs d k p : ℕ}
    (hessL hessO : Batch bs d k → Mat p)
    (batches batches' : List (Batch bs d k)) (hperm : batches.Perm batches')
    (mrank_d : Mat d → ℕ) (mrank_p : Mat p → ℕ) :
    runAccum hessL hessO batches = runAccum hessL hessO batches' ∧
    mrank_d (runAccum hessL hessO batches).cov
      = mrank_d (runAccum hessL hessO batches').cov ∧
    mrank_p (runAccum hessL hessO batches).hL
      = mrank_p (runAccum hessL hessO batches').hL ∧
    mrank_p (runAccum hessL hessO batches).hOuter
      = mrank_p (runAccum hessL hessO batches').hOuter := by
  have h : runAccum hessL hessO batches = runAccum hessL hessO batches' := by
    rw [runAccum_eq_sums, runAccum_eq_sums]
    congr 1
    · exact (hperm.map _).sum_eq
    · exact (hperm.map _).sum_eq
    · exact (hperm.map _).sum_eq
  exact ⟨h, by rw [h], by rw [h], by rw [h]⟩

/-- C5 witness: two concrete one-example batches processed in both orders;
the accumulated covariance evaluates to `1² + 2² = 5` either way. -/
theorem C5_batch_order_invariance_witness :
    (runAccum (fun b => b.input) (fun b => b.label) [wBatch1, wBatch2]).cov 0 0
      = 5 ∧
    (runAccum (fun b => b.input) (fun b => b.label) [wBatch1, wBatch2]
      = runAccum (fun b => b.input) (fun b => b.label) [wBatch2, wBatch1] ∧
    (fun _ : Mat 1 => 0)
        (runAccum (fun b => b.input) (fun b => b.label) [wBatch1, wBatch2]).cov
      = (fun _ : Mat 1 => 0)
        (runAccum (fun b => b.input) (fun b => b.label) [wBatch2, wBatch1]).cov ∧
    (fun _ : Mat 1 => 0)
        (runAccum (fun b => b.input) (fun b => b.label) [wBatch1, wBatch2]).hL
      = (fun _ : Mat 1 => 0)
        (runAccum (fun b => b.input) (fun b => b.label) [wBatch2, wBatch1]).hL ∧
    (fun _ : Mat 1 => 0)
        (runAccum (fun b => b.input) (fun b => b.label) [wBatch1, wBatch2]).hOuter
      = (fun _ : Mat 1 => 0)
        (runAccum (fun b => b.input) (fun b => b.label) [wBatch2, wBatch1]).hOuter) :=
  ⟨by
    simp only [runAccum, accInit, accStep, covContrib, wBatch1, wBatch2,
      List.foldl_cons, List.foldl_nil, Pi.add_apply, Pi.zero_apply,
      Fin.sum_univ_one]
    norm_num,
   C5_batch_order_invariance (fun b => b.input) (fun b => b.label)
     [wBatch1, wBatch2] [wBatch2, wBatch1]
     (List.Perm.swap wBatch2 wBatch1 []) (fun _ => 0) (fun _ => 0)⟩

/-- C6: the loss functional has exactly the three selectable forms of cell 12
— half the sum of squared differences for `mse`, the negative sum of targets
times the log-softmax of predictions for `cross`, and the sum of log-cosh of
the residual for `cosh` — and in each case the parameter-space loss is the
loss functional composed with the network evaluator. -/
theorem C6_loss_functional (P : Type) (n d k : ℕ) (log exp cosh : ℚ → ℚ)
    (apply_fn : P → (Fin n → Fin d → ℚ) → (Fin n → Fin k → ℚ)) :
    (∀ name : String, (cell12 log exp cosh apply_fn name).isSome
        ↔ (name = "mse" ∨ name = "cross" ∨ name = "cosh")) ∧
    cell12 log exp cosh apply_fn "mse"
      = some ⟨false, mse_loss,
          fun params inputs targets =>
            mse_loss (apply_fn params inputs) targets⟩ ∧
    cell12 log exp cosh apply_fn "cross"
      = some ⟨true, cross_loss log exp,
          fun params inputs targets =>
            cross_loss log exp (apply_fn params inputs) targets⟩ ∧
    cell12 log exp cosh apply_fn "cosh"
      = some ⟨false, cosh_loss log cosh,
          fun params inputs targets =>
            cosh_loss log cosh (apply_fn params inputs) targets⟩ ∧
    (∀ preds targets : Fin n → Fin k → ℚ,
      mse_loss preds targets
          = 1/2 * ∑ i, ∑ j, (preds i j - targets i j) ^ 2 ∧
      cross_loss log exp preds targets
          = -∑ i, ∑ j, logsoftmax log exp preds i j * targets i j ∧
      cosh_loss log cosh preds targets
          = ∑ i, ∑ j, log (cosh (preds i j - targets i j))) := by
  refine ⟨?_, rfl, rfl, rfl, fun preds targets => ⟨rfl, rfl, rfl⟩⟩
  intro name
  by_cases h1 : name = "mse" <;> by_cases h2 : name = "cross" <;>
    by_cases h3 : name = "cosh" <;> simp [cell12, h1, h2, h3]

/-- C7: the three accumulator matrices start zero-initialized, each loop
iteration changes them only by adding the per-batch contribution, the state
after the loop is the componentwise sum of all contributions, and the
post-loop stage is a pure read of that state (the functional-Hessian
subtraction). -/
theorem C7_accumulator_lifecycle {bs d k p : ℕ}
    (hessL hessO : Batch bs d k → Mat p) (batches : List (Batch bs d k)) :
    accInit d p = ⟨0, 0, 0⟩ ∧
    (∀ (st : AccState d p) (b : Batch bs d k),
      accStep hessL hessO st b
        = ⟨st.cov + covContrib b.input, st.hL + hessL b, st.hOuter + hessO b⟩) ∧
    runAccum hessL hessO batches
      = ⟨(batches.map (fun b => covContrib b.input)).sum,
         (batches.map hessL).sum, (batches.map hessO).sum⟩ ∧
    H_F (runAccum hessL hessO batches)
      = (runAccum hessL hessO batches).hL
        - (runAccum hessL hessO batches).hOuter :=
  ⟨rfl, fun _ _ => rfl, runAccum_eq_sums hessL hessO batches, rfl⟩

/-- C9: if the configured loss name is none of `mse`, `cross` or `cosh`,
cell 12 defines no loss at all (no default branch, no explicit error), and
the accumulation loop, whose every iteration uses the loss, fails at its
first iteration instead of producing a result. -/
theorem C9_unknown_loss_name (P : Type) (bs d k p : ℕ) (log exp cosh : ℚ → ℚ)
    (apply_fn : P → (Fin bs → Fin d → ℚ) → (Fin bs → Fin k → ℚ))
    (hessL hessO : LossDef P bs d k → Batch bs d k → Mat p)
    (name : String) (batches : List (Batch bs d k))
    (h1 : name ≠ "mse") (h2 : name ≠ "cross") (h3 : name ≠ "cosh")
    (hne : batches ≠ []) :
    cell12 log exp cosh apply_fn name = none ∧
    accLoopChecked (cell12 log exp cosh apply_fn name) hessL hessO
      (accInit d p) batches = none := by
  have hd : cell12 (P := P) (n := bs) (d := d) (k := k)
      log exp cosh apply_fn name = none := by
    simp [cell12, h1, h2, h3]
  refine ⟨hd, ?_⟩
  cases batches with
  | nil => exact absurd rfl hne
  | cons b rest => rw [hd]; rfl

/-- C9 witness: the unrecognized name `huber` on one concrete batch. -/
theorem C9_unknown_loss_name_witness :
    cell12 (fun x => x) (fun x => x) (fun x => x)
        (fun (_ : Unit) (x : Fin 1 → Fin 1 → ℚ) => x) "huber" = none ∧
    accLoopChecked
        (cell12 (fun x => x) (fun x => x) (fun x => x)
          (fun (_ : Unit) (x : Fin 1 → Fin 1 → ℚ) => x) "huber")
        (fun _ b => b.input) (fun _ b => b.label)
        (accInit 1 1) [wBatch1] = none :=
  C9_unknown_loss_name Unit 1 1 1 1 (fun x => x) (fun x => x) (fun x => x)
    (fun _ x => x) (fun _ b => b.input) (fun _ b => b.label) "huber" [wBatch1]
    (by decide) (by decide) (by decide) (List.cons_ne_nil wBatch1 [])

/-- C10: in the pipeline the cross-entropy class-count decrement happens only
at the bound-predictor stage: the dataset, the architecture, the parameter
count, the accumulated matrices and the measured ranks are all built from the
original class count, while the decremented count enters only `s`, `q` and
the three predictions. -/
theorem C10_decrement_frame {D A : Type} {bs din k p : ℕ}
    (gd : ℕ → ℕ → ℕ → D) (fc : List ℕ → ℕ → A)
    (hessL hessO : String → Batch bs din k → Mat p)
    (md : Mat din → ℕ) (mp : Mat p → ℕ)
    (n_train dim : ℕ) (widths : List ℕ) (classes : ℕ)
    (batches : List (Batch bs din k)) :
    notebook gd fc hessL hessO md mp n_train dim widths classes "cross" batches
      = { data := gd n_train dim classes
          arch := fc widths classes
          pTotal := pCount dim widths classes
          acc := runAccum (hessL "cross") (hessO "cross") batches
          rank_cov := md (runAccum (hessL "cross") (hessO "cross") batches).cov
          rank_L := mp (runAccum (hessL "cross") (hessO "cross") batches).hL
          rank_outer :=
            mp (runAccum (hessL "cross") (hessO "cross") batches).hOuter
          rank_F :=
            mp (H_F (runAccum (hessL "cross") (hessO "cross") batches))
          bounds := cell17 "cross"
            (md (runAccum (hessL "cross") (hessO "cross") batches).cov : ℤ)
            (classes : ℤ) widths } ∧
    (notebook gd fc hessL hessO md mp n_train dim widths classes "cross"
        batches).bounds.effClasses = (classes : ℤ) - 1 ∧
    (notebook gd fc hessL hessO md mp n_train dim widths classes "cross"
        batches).bounds.s
      = sval (md (runAccum (hessL "cross") (hessO "cross") batches).cov : ℤ)
          ((classes : ℤ) - 1) ∧
    (notebook gd fc hessL hessO md mp n_train dim widths classes "cross"
        batches).bounds.q
      = qval (md (runAccum (hessL "cross") (hessO "cross") batches).cov : ℤ)
          ((classes : ℤ) - 1) widths ∧
    (notebook gd fc hessL hessO md mp n_train dim widths classes "cross"
        batches).bounds.predF
      = pred_F (md (runAccum (hessL "cross") (hessO "cross") batches).cov : ℤ)
          ((classes : ℤ) - 1) widths ∧
    (notebook gd fc hessL hessO md mp n_train dim widths classes "cross"
        batches).bounds.predOuter
      = pred_outer
          (md (runAccum (hessL "cross") (hessO "cross") batches).cov : ℤ)
          ((classes : ℤ) - 1) widths ∧
    (notebook gd fc hessL hessO md mp n_train dim widths classes "cross"
        batches).bounds.predL
      = pred_L (md (runAccum (hessL "cross") (hessO "cross") batches).cov : ℤ)
          ((classes : ℤ) - 1) widths := by
  refine ⟨rfl, ?_, ?_, ?_, ?_, ?_, ?_⟩ <;>
    simp [notebook, cell17, effectiveClasses]
